import Mathlib

/-!
Verification of the expansion engine in `src/local.js` of openapi-codegen.

The source is a single Node.js module whose `main` function builds a rendering
model via an external transform, registers helpers and partials, prepares the
output directory (make, destructive clean), runs a whole-output pass and four
fan-out passes (perApi, perPath, perModel, perOperation), and finishes by
invoking a completion callback.

The embedding below translates `main` and its helpers into executable Lean
definitions.  JavaScript objects are modelled as association lists from field
names to a small value type `Val`; `Object.assign`, property access/update and
`delete` follow the JS shallow semantics.  External collaborators are
parameters: `tread` stands for `fs.readFileSync` on template files, `render`
for the Handlebars rendering capability (`Handlebars.compile t` applied to a
context), `lambdasModule` for the helper mapping of `src/lambdas.js`, and the
transform outcome for `src/adaptor.js`.  Filesystem effects are recorded as an
event trace from which the resulting file map is computed.
-/

/-- First-some choice on options, used to state field-lookup precedence. -/
def oElse {α : Type} : Option α → Option α → Option α
  | some v, _ => some v
  | none, b => b

/-- Lookup in an association list: the first entry with the given key. -/
def lookupA {α : Type} : List (String × α) → String → Option α
  | [], _ => none
  | (k', v) :: rest, k => if k' = k then some v else lookupA rest k

/-- JS property update on an object: replace the value in place if the key is
present, otherwise append the new key at the end (JS insertion order). -/
def setA {α : Type} : List (String × α) → String → α → List (String × α)
  | [], k, v => [(k, v)]
  | (k', v') :: rest, k, v => if k' = k then (k, v) :: rest else (k', v') :: setA rest k v

/-- JS `delete o.k`: remove the key from the object. -/
def delA {α : Type} (o : List (String × α)) (k : String) : List (String × α) :=
  o.filter (fun p => p.1 ≠ k)

/-- The keys of an association list, in order. -/
def keysA {α : Type} (o : List (String × α)) : List String :=
  o.map Prod.fst

/-- Well-formedness of an association list as a JS object: no duplicate keys.
Every object built by JS property assignment has this shape. -/
def wfA {α : Type} (o : List (String × α)) : Prop :=
  (keysA o).Nodup

/-- JavaScript values, as far as the engine manipulates them: `vundef` is the
`undefined` value, `vfun` an opaque function value (helpers are re-attached by
identity, never inspected), objects are association lists. -/
inductive Val where
  | vundef : Val
  | vstr : String → Val
  | vbool : Bool → Val
  | vnum : Int → Val
  | vfun : String → Val
  | vlist : List Val → Val
  | vobj : List (String × Val) → Val

/-- A JS object: fields in insertion order. -/
abbrev Obj := List (String × Val)

/-- JS `Object.assign(target, src)` for one source: fields of `src` override
fields of `target`, field by field (shallow). -/
def objAssign (target : Obj) (src : Obj) : Obj :=
  src.foldl (fun acc p => setA acc p.1 p.2) target

/-- The own enumerable properties a value contributes when spread by
`Object.assign`: an object contributes its fields, primitives contribute
nothing (string index properties are not modelled; the engine only merges
objects). -/
def valProps : Val → Obj
  | Val.vobj o => o
  | _ => []

/-- JS truthiness of a property-access result (`undefined` when absent). -/
def truthy : Option Val → Bool
  | none => false
  | some Val.vundef => false
  | some (Val.vbool b) => b
  | some (Val.vnum n) => n != 0
  | some (Val.vstr s) => s != ""
  | some (Val.vfun _) => true
  | some (Val.vlist _) => true
  | some (Val.vobj _) => true

/-- Errors thrown by the JS runtime or by Handlebars. -/
inductive JsError where
  | typeError : String → JsError
  | hbsError : String → JsError
deriving DecidableEq, Repr

/-- Property access on an object: yields the `undefined` value when the key is
absent (JS never throws here). -/
def jsGet (o : Obj) (k : String) : Val :=
  (lookupA o k).getD Val.vundef

/-- Property access `v.k` on an arbitrary value: throws a TypeError on
`undefined`, reads the field on an object, and yields `undefined` on other
primitives (their built-in properties are not modelled). -/
def jsMember : Val → String → Except JsError Val
  | Val.vundef, k => Except.error (JsError.typeError ("Cannot read properties of undefined (reading " ++ k ++ ")"))
  | Val.vobj o, k => Except.ok (jsGet o k)
  | _, _ => Except.ok Val.vundef

/-- Property assignment `v.k = x`: throws a TypeError on `undefined`, updates
the field on an object. -/
def jsSetProp : Val → String → Val → Except JsError Obj
  | Val.vundef, k, _ => Except.error (JsError.typeError ("Cannot set properties of undefined (setting " ++ k ++ ")"))
  | Val.vobj o, k, v => Except.ok (setA o k v)
  | _, k, _ => Except.error (JsError.typeError ("Cannot create property " ++ k ++ " on primitive"))

/-- JS `for..of` iteration: arrays iterate their elements; anything else the
engine ever iterates would throw (string iteration is not modelled — the
model's collections are arrays). -/
def jsIterate : Val → Except JsError (List Val)
  | Val.vlist l => Except.ok l
  | _ => Except.error (JsError.typeError "value is not iterable")

/-- One fan-out spec (`perApi` / `perPath` / `perModel` / `perOperation` list
entry): an input template path, an output-path template, optional defaults. -/
structure FanOutSpec where
  input : String
  output : String
  defaults : Option Obj

/-- One whole-output transformation entry.  The run itself stores the read
template text into the entry (line 64), so `template` starts out as the
caller supplied it (normally absent). -/
structure Transformation where
  input : Option String
  output : String
  template : Option String

/-- The configuration object passed to `main` (recognized options, spec section 6). -/
structure Config where
  outputDir : Option String
  templateDir : Option String
  defaults : Obj
  generator : Option Obj
  partials : List (String × String)
  transformations : List Transformation
  directories : Option (List String)
  touch : Option String
  apache : Bool
  perApi : Option (List FanOutSpec)
  perPath : Option (List FanOutSpec)
  perModel : Option (List FanOutSpec)
  perOperation : Option (List FanOutSpec)

/-- Path join: segments joined with a slash, empty segments dropped (used for
the flat-mode empty subdirectory).  `path.join` normalization of `.` and
duplicate slashes is not modelled; paths are treated as opaque keys. -/
def pjoin (segs : List String) : String :=
  String.intercalate "/" (segs.filter (fun s => s ≠ ""))

/-- Lines 24-30: template path resolution.  With a `templateDir` override the
first segment (the run name) is dropped (`segments.splice(0,1)`) and the rest
resolved under the override; otherwise under the built-in tree next to the
source (`path.join(__dirname, 'templates', ...)`, written here as the marker
segment `__dirname/templates`). -/
def tpl (templateDir : Option String) (segments : List String) : String :=
  match templateDir with
  | some d => pjoin (d :: segments.drop 1)
  | none => pjoin ("__dirname/templates" :: segments)

/-- JS `path.dirname`: everything before the last slash, `.` when there is
no slash. -/
def dirnameJs (p : String) : String :=
  let parts := p.splitOn "/"
  if parts.length ≤ 1 then "." else String.intercalate "/" parts.dropLast

/-- The filesystem as a map from file path to content. -/
abbrev Fsys := List (String × String)

/-- Boolean prefix test on character lists (kernel-computable). -/
def strPrefix : List Char → List Char → Bool
  | [], _ => true
  | _ :: _, [] => false
  | c :: cs, d :: ds => c == d && strPrefix cs ds

/-- Whether path `p` lies strictly inside directory `d`. -/
def isUnder (d p : String) : Bool :=
  strPrefix (d ++ "/").data p.data

/-- The destructive clean (`rimraf(dir + '/*')`): every file inside the
directory is removed; the directory itself survives. -/
def cleanFs (st : Fsys) (d : String) : Fsys :=
  st.filter (fun e => !(isUnder d e.1))

/-- Events emitted inside the prepared-directory callback (lines 74-171):
directory creation, file writes.  No clean happens here — `rimraf` occurs
exactly once, before this block runs. -/
inductive BodyEvent where
  | mkdirp : String → BodyEvent
  | write : String → String → BodyEvent
deriving DecidableEq, Repr

/-- The full trace of a run: helper/partial registration against Handlebars,
directory creation, the destructive clean, and file writes. -/
inductive Event where
  | regHelper : String → Event
  | regPartial : String → Event
  | mkdirp : String → Event
  | clean : String → Event
  | write : String → String → Event
deriving DecidableEq, Repr

/-- Inject a body event into the full trace. -/
def BodyEvent.toEvent : BodyEvent → Event
  | BodyEvent.mkdirp p => Event.mkdirp p
  | BodyEvent.write p c => Event.write p c

/-- Effect of one event on the filesystem (registrations and directory
creation do not change the file map). -/
def applyEvent (st : Fsys) : Event → Fsys
  | Event.write p c => setA st p c
  | Event.clean d => cleanFs st d
  | _ => st

/-- Effect of a trace on the filesystem, in order. -/
def applyEvents (st : Fsys) (evs : List Event) : Fsys :=
  evs.foldl applyEvent st

/-- Effect of a body-event list on the filesystem (used while the run is in
progress, e.g. by the touch step's existence check). -/
def applyBody (st : Fsys) (evs : List BodyEvent) : Fsys :=
  evs.foldl (fun acc e => applyEvent acc e.toEvent) st

/-- The paths written by a trace. -/
def writePaths (evs : List Event) : List String :=
  evs.filterMap (fun e => match e with
    | Event.write p _ => some p
    | _ => none)

/-- The contents written to a given path by a trace, in order. -/
def writesTo (evs : List Event) (p : String) : List String :=
  evs.filterMap (fun e => match e with
    | Event.write q c => if q = p then some c else none
    | _ => none)

/-- A Handlebars compiled template: `Handlebars.compile` returns a bare
function from context to string. -/
structure CompiledTemplate where
  fn : Obj → String

/-- JS property access `t.render` on a compiled template.  The value returned
by `Handlebars.compile` is a plain function and exposes no `render` method —
every other call site in `src/local.js` invokes the compiled template
directly — so the access yields `undefined` (modelled as `none`). -/
def CompiledTemplate.renderMethod (_t : CompiledTemplate) : Option (Obj → String) :=
  none

/-- `Handlebars.compile` on a possibly-undefined template source: compiling a
non-string (an entry with no `input`, hence no stored `template`) throws. -/
def hbCompile (render : String → Obj → String) : Option String → Except JsError (Obj → String)
  | some t => Except.ok (render t)
  | none => Except.error (JsError.hbsError "You must pass a string or Handlebars AST to Handlebars.compile")

/-- The error type the external transform reports through its callback. -/
abbrev TransformErr := String

/-- Line 41: `model["generator"] = generator`. -/
def attachGenerator (modelArg : Val) (generatorVal : Val) : Except JsError Obj :=
  jsSetProp modelArg "generator" generatorVal

/-- Lines 36-39: the `generator` local — the configuration's generator object,
or the `undefined` value when the configuration supplies none. -/
def genVal : Option Obj → Val
  | some g => Val.vobj g
  | none => Val.vundef

/-- Lines 47-52: the helper names registered from `generator.lambdas`
(guarded by `generator && generator.lambdas`; `for..in` yields the own keys
of an object and nothing for primitives). -/
def generatorLambdaKeys : Option Obj → List String
  | none => []
  | some g =>
    if truthy (lookupA g "lambdas") then
      match lookupA g "lambdas" with
      | some (Val.vobj l) => keysA l
      | _ => []
    else []

/-- Lines 59-67: build the actions list; each transformation with an `input`
gets the read template text stored into it (this mutates the entries of
`config.transformations` — the pushed `tx` objects are the same objects). -/
def prepActions (tread : String → String) (templateDir : Option String)
    (configName : String) (txs : List Transformation) : List Transformation :=
  txs.map (fun tx =>
    match tx.input with
    | some i => { tx with template := some (tread (tpl templateDir [configName, i])) }
    | none => tx)

/-- Lines 79-86: the whole-output pass.  For each action, compile the
output-path template and the body template, render both against the full
model, and write the file.  On an error, the events already emitted are
carried in the error. -/
def txStep (render : String → Obj → String) (outputDir subDir : String) (m : Obj) :
    List Transformation → Except (JsError × List BodyEvent) (List BodyEvent)
  | [] => Except.ok []
  | action :: rest =>
    let fnTemplate := render action.output
    match hbCompile render action.template with
    | Except.error e => Except.error (e, [])
    | Except.ok template =>
      let filename := fnTemplate m
      let content := template m
      let ev := BodyEvent.write (pjoin [outputDir, subDir, filename]) content
      match txStep render outputDir subDir m rest with
      | Except.error (e, evs) => Except.error (e, ev :: evs)
      | Except.ok evs => Except.ok (ev :: evs)

/-- Lines 87-99: the touch step.  The code compiles `config.touch` and calls
`touchTmp.render(model)`; a compiled template has no `render` method, so this
throws.  The remainder (split on both line-ending styles, trim, create each
missing file empty) is transcribed for completeness but is unreachable. -/
def touchStep (render : String → Obj → String) (touch : Option String) (m : Obj)
    (outputDir subDir : String) (fsNow : Fsys) : Except (JsError × List BodyEvent) (List BodyEvent) :=
  match touch with
  | none => Except.ok []
  | some t =>
    let touchTmp : CompiledTemplate := ⟨render t⟩
    match touchTmp.renderMethod with
    | none => Except.error (JsError.typeError "touchTmp.render is not a function", [])
    | some r =>
      let touchList := r m
      let files := (touchList.replace "\r" "").splitOn "\n"
      Except.ok (files.foldl (fun (acc : List BodyEvent × Fsys) file =>
        let file := file.trim
        if file ≠ "" then
          let p := pjoin [outputDir, subDir, file]
          match lookupA acc.2 p with
          | some _ => acc
          | none => (acc.1 ++ [BodyEvent.write p ""], setA acc.2 p "")
        else acc) ([], fsNow)).1

/-- Lines 115 and 130: the per-item context of the perApi and perPath passes —
`Object.assign({}, config.defaults, pa.defaults||{}, toplevel, item)`. -/
def itemContext (gdefaults : Obj) (pa : FanOutSpec) (toplevel : Obj) (item : Val) : Obj :=
  objAssign (objAssign (objAssign (objAssign [] gdefaults) (pa.defaults.getD [])) toplevel) (valProps item)

/-- Lines 111-120: the perApi spec loop.  For each spec, read its template,
fetch `model.apiInfo.apis`, and write one file per API item, rendered against
the merged item context. -/
def perApiSpecs (render : String → Obj → String) (tread : String → String)
    (templateDir : Option String) (configName outputDir subDir : String)
    (gdefaults toplevel : Obj) (m : Obj) :
    List FanOutSpec → Except (JsError × List BodyEvent) (List BodyEvent)
  | [] => Except.ok []
  | pa :: rest =>
    let tmpl := tread (tpl templateDir [configName, pa.input])
    match (jsMember (jsGet m "apiInfo") "apis").bind jsIterate with
    | Except.error e => Except.error (e, [])
    | Except.ok apis =>
      let evs := apis.map (fun api =>
        let cApi := itemContext gdefaults pa toplevel api
        BodyEvent.write (pjoin [outputDir, subDir, render pa.output cApi]) (render tmpl cApi))
      match perApiSpecs render tread templateDir configName outputDir subDir gdefaults toplevel m rest with
      | Except.error (e, evs2) => Except.error (e, evs ++ evs2)
      | Except.ok evs2 => Except.ok (evs ++ evs2)

/-- Lines 108-121: the perApi pass: a reference-free clone of the model with
`apiInfo` deleted is the toplevel merge base for every spec. -/
def perApiStep (render : String → Obj → String) (tread : String → String)
    (config : Config) (configName outputDir subDir : String) (m : Obj) :
    Except (JsError × List BodyEvent) (List BodyEvent) :=
  match config.perApi with
  | none => Except.ok []
  | some specs =>
    let toplevel := delA m "apiInfo"
    perApiSpecs render tread config.templateDir configName outputDir subDir config.defaults toplevel m specs

/-- Lines 126-137: the perPath spec loop.  Identical merge to perApi but over
`model.apiInfo.paths`, and the rendered filename's parent directory is
created before the write. -/
def perPathSpecs (render : String → Obj → String) (tread : String → String)
    (templateDir : Option String) (configName outputDir subDir : String)
    (gdefaults toplevel : Obj) (m : Obj) :
    List FanOutSpec → Except (JsError × List BodyEvent) (List BodyEvent)
  | [] => Except.ok []
  | pa :: rest =>
    let tmpl := tread (tpl templateDir [configName, pa.input])
    match (jsMember (jsGet m "apiInfo") "paths").bind jsIterate with
    | Except.error e => Except.error (e, [])
    | Except.ok paths =>
      let evs := paths.foldl (fun acc pat =>
        let cPath := itemContext gdefaults pa toplevel pat
        let filename := render pa.output cPath
        let dirname := dirnameJs filename
        acc ++ [BodyEvent.mkdirp (pjoin [outputDir, subDir, dirname]),
                BodyEvent.write (pjoin [outputDir, subDir, filename]) (render tmpl cPath)]) []
      match perPathSpecs render tread templateDir configName outputDir subDir gdefaults toplevel m rest with
      | Except.error (e, evs2) => Except.error (e, evs ++ evs2)
      | Except.ok evs2 => Except.ok (evs ++ evs2)

/-- Lines 123-138: the perPath pass. -/
def perPathStep (render : String → Obj → String) (tread : String → String)
    (config : Config) (configName outputDir subDir : String) (m : Obj) :
    Except (JsError × List BodyEvent) (List BodyEvent) :=
  match config.perPath with
  | none => Except.ok []
  | some specs =>
    let toplevel := delA m "apiInfo"
    perPathSpecs render tread config.templateDir configName outputDir subDir config.defaults toplevel m specs

/-- Line 147: the effective perModel item —
`Object.assign({}, model, pm.defaults||{})`; the spec defaults are assigned
last, so they override the item's own fields. -/
def effModelOf (item : Val) (pmDefaults : Obj) : Obj :=
  objAssign (objAssign [] (valProps item)) pmDefaults

/-- Lines 145-152, one iteration: empty the outer model's `models` list, push
the effective item as its sole element, then render the output path and the
body against the outer context. -/
def modelStep (render : String → Obj → String) (pm : FanOutSpec) (tmpl outputDir subDir : String)
    (acc : List BodyEvent × Obj) (item : Val) : List BodyEvent × Obj :=
  let m := setA acc.2 "models" (Val.vlist [])
  let eff := effModelOf item (pm.defaults.getD [])
  let m := setA m "models" (Val.vlist [Val.vobj eff])
  let filename := render pm.output m
  let content := render tmpl m
  (acc.1 ++ [BodyEvent.write (pjoin [outputDir, subDir, filename]) content], m)

/-- Lines 142-153: the perModel spec loop.  The cloned `models` collection is
iterated for each spec; the outer model context, mutated in its `models`
field, is threaded through. -/
def perModelSpecs (render : String → Obj → String) (tread : String → String)
    (templateDir : Option String) (configName outputDir subDir : String)
    (cModelsV : Val) :
    List FanOutSpec → Obj → Except (JsError × List BodyEvent) (List BodyEvent × Obj)
  | [], m => Except.ok ([], m)
  | pm :: rest, m =>
    let tmpl := tread (tpl templateDir [configName, pm.input])
    match jsIterate cModelsV with
    | Except.error e => Except.error (e, [])
    | Except.ok items =>
      let (evs, m1) := items.foldl (modelStep render pm tmpl outputDir subDir) ([], m)
      match perModelSpecs render tread templateDir configName outputDir subDir cModelsV rest m1 with
      | Except.error (e, evs2) => Except.error (e, evs ++ evs2)
      | Except.ok (evs2, m2) => Except.ok (evs ++ evs2, m2)

/-- Lines 140-154: the perModel pass.  `clone(model.models)` is taken once
(clone is the identity on our pure values); the outer model is mutated. -/
def perModelStep (render : String → Obj → String) (tread : String → String)
    (config : Config) (configName outputDir subDir : String) (m : Obj) :
    Except (JsError × List BodyEvent) (List BodyEvent × Obj) :=
  match config.perModel with
  | none => Except.ok ([], m)
  | some specs =>
    let cModelsV := jsGet m "models"
    perModelSpecs render tread config.templateDir configName outputDir subDir cModelsV specs m

/-- Lines 162-168, one iteration: empty the model's `operations` list, push
the current operation, then render output path and body against the outer
(same) model object. -/
def opStep (render : String → Obj → String) (po : FanOutSpec) (tmpl outputDir subDir : String)
    (acc : List BodyEvent × Obj) (operation : Val) : List BodyEvent × Obj :=
  let m := setA acc.2 "operations" (Val.vlist [])
  let m := setA m "operations" (Val.vlist [operation])
  (acc.1 ++ [BodyEvent.write (pjoin [outputDir, subDir, render po.output m]) (render tmpl m)], m)

/-- Lines 158-169: the API loop of one perOperation spec.  For each API,
clone its `operations` collection, read the spec's template, and iterate
`cOperations.operation`. -/
def perOpApis (render : String → Obj → String) (tread : String → String)
    (templateDir : Option String) (configName outputDir subDir : String)
    (po : FanOutSpec) :
    List Val → Obj → Except (JsError × List BodyEvent) (List BodyEvent × Obj)
  | [], m => Except.ok ([], m)
  | api :: rest, m =>
    match jsMember api "operations" with
    | Except.error e => Except.error (e, [])
    | Except.ok cOperations =>
      let tmpl := tread (tpl templateDir [configName, po.input])
      match (jsMember cOperations "operation").bind jsIterate with
      | Except.error e => Except.error (e, [])
      | Except.ok ops =>
        let (evs, m1) := ops.foldl (opStep render po tmpl outputDir subDir) ([], m)
        match perOpApis render tread templateDir configName outputDir subDir po rest m1 with
        | Except.error (e, evs2) => Except.error (e, evs ++ evs2)
        | Except.ok (evs2, m2) => Except.ok (evs ++ evs2, m2)

/-- Lines 157-170: the perOperation spec loop over `outer.apiInfo.apis`. -/
def perOpSpecs (render : String → Obj → String) (tread : String → String)
    (templateDir : Option String) (configName outputDir subDir : String) :
    List FanOutSpec → Obj → Except (JsError × List BodyEvent) (List BodyEvent × Obj)
  | [], m => Except.ok ([], m)
  | po :: rest, m =>
    match (jsMember (jsGet m "apiInfo") "apis").bind jsIterate with
    | Except.error e => Except.error (e, [])
    | Except.ok apis =>
      match perOpApis render tread templateDir configName outputDir subDir po apis m with
      | Except.error (e, evs) => Except.error (e, evs)
      | Except.ok (evs, m1) =>
        match perOpSpecs render tread templateDir configName outputDir subDir rest m1 with
        | Except.error (e, evs2) => Except.error (e, evs ++ evs2)
        | Except.ok (evs2, m2) => Except.ok (evs ++ evs2, m2)

/-- Lines 156-171: the perOperation pass. -/
def perOperationStep (render : String → Obj → String) (tread : String → String)
    (config : Config) (configName outputDir subDir : String) (m : Obj) :
    Except (JsError × List BodyEvent) (List BodyEvent × Obj) :=
  match config.perOperation with
  | none => Except.ok ([], m)
  | some specs => perOpSpecs render tread config.templateDir configName outputDir subDir specs m

/-- Helper to prefix accumulated events onto a step error. -/
def withEvs {β : Type} (pre : List BodyEvent) :
    Except (JsError × List BodyEvent) β → Except (JsError × List BodyEvent) β
  | Except.error (e, evs) => Except.error (e, pre ++ evs)
  | Except.ok b => Except.ok b

/-- Lines 74-171: everything inside the `rimraf` callback.  Directory
creation, the whole-output pass, the touch step, the license write, and the
four fan-out passes, in source order.  An error carries the body events
emitted before it was thrown. -/
def runBody (tread : String → String) (render : String → Obj → String)
    (config : Config) (configName outputDir subDir : String)
    (actions : List Transformation) (m : Obj) (fs1 : Fsys) :
    Except (JsError × List BodyEvent) (List BodyEvent) :=
  let dirEvents := (config.directories.getD []).map (fun d => BodyEvent.mkdirp (pjoin [outputDir, subDir, d]))
  match withEvs dirEvents (txStep render outputDir subDir m actions) with
  | Except.error err => Except.error err
  | Except.ok txEvents =>
    let evs1 := dirEvents ++ txEvents
    match withEvs evs1 (touchStep render config.touch m outputDir subDir (applyBody fs1 evs1)) with
    | Except.error err => Except.error err
    | Except.ok touchEvents =>
      let licEvents := [BodyEvent.write (pjoin [outputDir, subDir, "LICENSE"])
        (tread (tpl none ["_common", if config.apache then "LICENSE" else "UNLICENSE"]))]
      let evs2 := evs1 ++ touchEvents ++ licEvents
      match withEvs evs2 (perApiStep render tread config configName outputDir subDir m) with
      | Except.error err => Except.error err
      | Except.ok apiEvents =>
        let evs3 := evs2 ++ apiEvents
        match withEvs evs3 (perPathStep render tread config configName outputDir subDir m) with
        | Except.error err => Except.error err
        | Except.ok pathEvents =>
          let evs4 := evs3 ++ pathEvents
          match withEvs evs4 (perModelStep render tread config configName outputDir subDir m) with
          | Except.error err => Except.error err
          | Except.ok (modelEvents, m1) =>
            let evs5 := evs4 ++ modelEvents
            match withEvs evs5 (perOperationStep render tread config configName outputDir subDir m1) with
            | Except.error err => Except.error err
            | Except.ok (opEvents, _m2) => Except.ok (evs5 ++ opEvents)

/-- The observable state of a run: the configuration object (which the run
mutates) and the trace of effects performed so far. -/
structure RunState where
  config : Config
  events : List Event

/-- How a run ends.  `completed` means line 173 ran: the completion callback
was invoked with `(null, true)`.  `thrown` means an exception escaped: the
callback was never invoked. -/
inductive Outcome where
  | thrown : JsError → RunState → Outcome
  | completed : RunState → Outcome

/-- The run state of either outcome. -/
def Outcome.state : Outcome → RunState
  | Outcome.thrown _ s => s
  | Outcome.completed s => s

/-- Line 69: the output subdirectory — empty in flat mode, else the run name. -/
def subDirOf (defaults : Obj) (configName : String) : String :=
  if truthy (lookupA defaults "flat") then "" else configName

/-- Lines 32-177: the entry point `main(o, config, configName, callback)`.

Parameters standing for external collaborators:
`tread` — `fs.readFileSync` on template files (reads assumed to succeed);
`render` — the Handlebars rendering capability, `render t ctx` being the
compiled template for source `t` applied to `ctx`;
`lambdasModule` — the helper mapping exported by `src/lambdas.js` (not under
src/; modelled from the spec as a name-to-function mapping merged into the
model);
`transformResult` — the outcome `adaptor.transform` reports through its
callback.  Modelled from the spec: `src/adaptor.js` is not under src/; per
the spec it either produces the model or rejects the raw input, invoking the
callback with a non-null error and no model, so on failure the `model`
argument of the callback in lines 40-176 is the `undefined` value.

The body follows the source line by line: read `outputDir` and `verbose`,
mutate `config.defaults.configName`, run the transform callback (attach the
generator, attach the global lambdas, the verbose trace of
`generator.lambdas`, register generator helpers and partials, build the
actions list — mutating the transformation entries), then prepare the output
directory (make, destructive clean) and run `runBody` inside its callback. -/
def LocalJs.main (tread : String → String) (render : String → Obj → String)
    (lambdasModule : Obj) (transformResult : Except TransformErr Obj)
    (config : Config) (configName : String) (fs0 : Fsys) : Outcome :=
  let outputDir := config.outputDir.getD "./out/"
  let verbose := truthy (lookupA config.defaults "verbose")
  let config1 : Config := { config with defaults := setA config.defaults "configName" (Val.vstr configName) }
  let generatorVal := genVal config1.generator
  let modelArg : Val := match transformResult with
    | Except.ok m => Val.vobj m
    | Except.error _ => Val.vundef
  match attachGenerator modelArg generatorVal with
  | Except.error e => Outcome.thrown e ⟨config1, []⟩
  | Except.ok m0 =>
    let m1 := objAssign m0 lambdasModule
    match (if verbose then (jsMember generatorVal "lambdas").map (fun _ => ()) else Except.ok ()) with
    | Except.error e => Outcome.thrown e ⟨config1, []⟩
    | Except.ok _ =>
      let pre := (generatorLambdaKeys config1.generator).map Event.regHelper
        ++ config1.partials.map (fun p => Event.regPartial p.1)
      let actions := prepActions tread config1.templateDir configName config1.transformations
      let config2 : Config := { config1 with transformations := actions }
      let subDir := subDirOf config2.defaults configName
      let dir := pjoin [outputDir, subDir]
      let fs1 := cleanFs fs0 dir
      match runBody tread render config2 configName outputDir subDir actions m1 fs1 with
      | Except.error (e, evs) =>
        Outcome.thrown e ⟨config2, pre ++ Event.mkdirp dir :: Event.clean dir :: evs.map BodyEvent.toEvent⟩
      | Except.ok body =>
        Outcome.completed ⟨config2, pre ++ Event.mkdirp dir :: Event.clean dir :: body.map BodyEvent.toEvent⟩

/-- Events that do not touch the file map: registrations and directory
creation. -/
def isNeutral : Event → Bool
  | Event.regHelper _ => true
  | Event.regPartial _ => true
  | Event.mkdirp _ => true
  | _ => false

/-- The directory a run makes and destructively cleans:
`path.join(outputDir, subDir)`. -/
def mainDir (config : Config) (configName : String) : String :=
  pjoin [config.outputDir.getD "./out/", subDirOf config.defaults configName]

/-- The path of the LICENSE file a run writes. -/
def licensePath (config : Config) (configName : String) : String :=
  pjoin [config.outputDir.getD "./out/", subDirOf config.defaults configName, "LICENSE"]

/-- The content of the LICENSE file: one of the two fixed texts from the
built-in template tree, selected by the `apache` flag — the reads go through
`tpl` with an empty configuration (`tpl({}, '_common', ...)`), never through
the run's `templateDir`. -/
def licenseContent (tread : String → String) (config : Config) : String :=
  tread (tpl none ["_common", if config.apache then "LICENSE" else "UNLICENSE"])

/-- An API item whose `operations` collection has the swagger-codegen shape
`{ operation: [...] }` that line 162 (`cOperations.operation`) iterates:
`flds` are the item's other fields, the second component its operations. -/
def mkApi (a : Obj × List Val) : Val :=
  Val.vobj (setA a.1 "operations" (Val.vobj [("operation", Val.vlist a.2)]))

/-- The model context against which one perOperation render happens: the
outer model with its `operations` field replaced by the one-element list
holding the current operation. -/
def opContext (m : Obj) (operation : Val) : Obj :=
  setA m "operations" (Val.vlist [operation])

/-- The model context against which one perModel render happens: the outer
model with its `models` field replaced by the one-element list holding the
effective item. -/
def modelContext (m : Obj) (item : Val) (pmDefaults : Obj) : Obj :=
  setA m "models" (Val.vlist [Val.vobj (effModelOf item pmDefaults)])

/-- A minimal configuration used to exercise the run on concrete inputs. -/
def cfgW : Config :=
  { outputDir := some "out", templateDir := none, defaults := [],
    generator := none, partials := [], transformations := [],
    directories := none, touch := none, apache := false,
    perApi := none, perPath := none, perModel := none, perOperation := none }

theorem lookupA_setA_self {α : Type} (o : List (String × α)) (k : String) (v : α) :
    lookupA (setA o k v) k = some v := by
  induction o with
  | nil => simp [setA, lookupA]
  | cons p rest ih =>
    obtain ⟨k', v'⟩ := p
    by_cases h : k' = k
    · simp [setA, lookupA, h]
    · simp [setA, lookupA, h, ih]

theorem lookupA_setA_ne {α : Type} (o : List (String × α)) (k k' : String) (v : α)
    (h : k' ≠ k) : lookupA (setA o k' v) k = lookupA o k := by
  induction o with
  | nil => simp [setA, lookupA, h]
  | cons p rest ih =>
    obtain ⟨q, w⟩ := p
    by_cases hq : q = k'
    · subst hq
      simp [setA, lookupA, h, ih]
    · simp [setA, hq, lookupA, ih]

theorem setA_setA_same {α : Type} (o : List (String × α)) (k : String) (a b : α) :
    setA (setA o k a) k b = setA o k b := by
  induction o with
  | nil => simp [setA]
  | cons p rest ih =>
    obtain ⟨q, w⟩ := p
    by_cases hq : q = k
    · simp [setA, hq]
    · simp [setA, hq, ih]


theorem keysA_cons {α : Type} (p : String × α) (rest : List (String × α)) :
    keysA (p :: rest) = p.1 :: keysA rest := rfl

theorem lookupA_eq_none_of_not_mem_keys {α : Type} (o : List (String × α)) (k : String)
    (h : k ∉ keysA o) : lookupA o k = none := by
  induction o with
  | nil => rfl
  | cons p rest ih =>
    obtain ⟨q, w⟩ := p
    rw [keysA_cons] at h
    simp only [List.mem_cons, not_or] at h
    simp [lookupA, Ne.symm h.1, ih h.2]

theorem lookupA_objAssign {a b : Obj} {k : String} (hb : wfA b) :
    lookupA (objAssign a b) k = oElse (lookupA b k) (lookupA a k) := by
  induction b generalizing a with
  | nil => simp [objAssign, lookupA, oElse]
  | cons p rest ih =>
    obtain ⟨q, w⟩ := p
    rw [wfA, keysA_cons, List.nodup_cons] at hb
    have hw : wfA rest := hb.2
    have hstep : objAssign a ((q, w) :: rest) = objAssign (setA a q w) rest := rfl
    rw [hstep, ih hw]
    by_cases hq : q = k
    · subst hq
      have hnone : lookupA rest q = none :=
        lookupA_eq_none_of_not_mem_keys rest q hb.1
      simp [lookupA, hnone, oElse, lookupA_setA_self]
    · simp [lookupA, hq, lookupA_setA_ne a k q w hq]

theorem keysA_setA {α : Type} (o : List (String × α)) (k : String) (v : α) :
    keysA (setA o k v) = if k ∈ keysA o then keysA o else keysA o ++ [k] := by
  induction o with
  | nil => simp [setA, keysA]
  | cons p rest ih =>
    obtain ⟨q, w⟩ := p
    by_cases hq : q = k
    · subst hq
      simp [setA, keysA_cons]
    · have hne : k ≠ q := fun he => hq he.symm
      simp only [setA, if_neg hq, keysA_cons, ih, List.mem_cons, hne, false_or]
      by_cases hk : k ∈ keysA rest <;> simp [hk]

theorem wfA_setA {α : Type} (o : List (String × α)) (k : String) (v : α)
    (h : wfA o) : wfA (setA o k v) := by
  unfold wfA at h ⊢
  rw [keysA_setA]
  by_cases hk : k ∈ keysA o
  · simpa [hk] using h
  · simp only [hk, if_false]
    rw [List.nodup_append]
    exact ⟨h, List.nodup_singleton k, by
      intro x hx hmem
      simp at hmem
      exact hk (hmem ▸ hx)⟩

theorem wfA_delA {α : Type} (o : List (String × α)) (k : String)
    (h : wfA o) : wfA (delA o k) :=
  List.Nodup.sublist (List.Sublist.map Prod.fst (List.filter_sublist o)) h

theorem applyEvent_neutral (st : Fsys) (e : Event) (h : isNeutral e = true) :
    applyEvent st e = st := by
  cases e <;> simp_all [isNeutral, applyEvent]

theorem applyEvents_append (st : Fsys) (a b : List Event) :
    applyEvents st (a ++ b) = applyEvents (applyEvents st a) b := by
  simp [applyEvents, List.foldl_append]

theorem applyEvents_neutral (st : Fsys) (evs : List Event)
    (h : ∀ e ∈ evs, isNeutral e = true) : applyEvents st evs = st := by
  induction evs generalizing st with
  | nil => rfl
  | cons e rest ih =>
    have : applyEvent st e = st := applyEvent_neutral st e (h e (List.mem_cons_self e rest))
    simp only [applyEvents, List.foldl_cons, this]
    exact ih st (fun x hx => h x (List.mem_cons_of_mem e hx))

theorem lookupA_cleanFs_of_none (st : Fsys) (d p : String) (h : lookupA st p = none) :
    lookupA (cleanFs st d) p = none := by
  induction st with
  | nil => rfl
  | cons e rest ih =>
    obtain ⟨q, c⟩ := e
    by_cases hq : q = p
    · simp [lookupA, hq] at h
    · simp only [lookupA, if_neg hq] at h
      by_cases hu : isUnder d q
      · simpa [cleanFs, hu] using ih h
      · simpa [cleanFs, hu, lookupA, hq] using ih h

theorem lookupA_cleanFs_under (st : Fsys) (d p : String) (h : isUnder d p = true) :
    lookupA (cleanFs st d) p = none := by
  induction st with
  | nil => rfl
  | cons e rest ih =>
    obtain ⟨q, c⟩ := e
    by_cases hq : q = p
    · subst hq
      simpa [cleanFs, h] using ih
    · by_cases hu : isUnder d q
      · simpa [cleanFs, hu] using ih
      · simpa [cleanFs, hu, lookupA, hq] using ih

theorem lookup_applyEvents_none (evs : List Event) (st : Fsys) (p : String)
    (hw : p ∉ writePaths evs) (h0 : lookupA st p = none) :
    lookupA (applyEvents st evs) p = none := by
  induction evs generalizing st with
  | nil => exact h0
  | cons e rest ih =>
    have hw' : p ∉ writePaths rest := by
      intro hmem
      exact hw (by simp [writePaths] at hmem ⊢; exact Or.inr hmem)
    cases e with
    | write q c =>
      have hq : q ≠ p := by
        intro he
        exact hw (by simp [writePaths, he])
      simp only [applyEvents, List.foldl_cons, applyEvent]
      exact ih (setA st q c) hw' (by rw [lookupA_setA_ne st p q c hq]; exact h0)
    | clean d =>
      simp only [applyEvents, List.foldl_cons, applyEvent]
      exact ih _ hw' (lookupA_cleanFs_of_none st d p h0)
    | regHelper n =>
      simp only [applyEvents, List.foldl_cons, applyEvent]
      exact ih st hw' h0
    | regPartial n =>
      simp only [applyEvents, List.foldl_cons, applyEvent]
      exact ih st hw' h0
    | mkdirp d =>
      simp only [applyEvents, List.foldl_cons, applyEvent]
      exact ih st hw' h0

theorem writesTo_append (a b : List Event) (p : String) :
    writesTo (a ++ b) p = writesTo a p ++ writesTo b p := by
  simp [writesTo]

theorem mem_of_mem_writesTo (evs : List Event) (p c : String)
    (h : c ∈ writesTo evs p) : Event.write p c ∈ evs := by
  unfold writesTo at h
  rcases List.mem_filterMap.mp h with ⟨e, he, hfe⟩
  cases e with
  | write q d =>
    by_cases hq : q = p
    · subst hq
      simp at hfe
      exact hfe ▸ he
    · simp [hq] at hfe
  | clean d => simp at hfe
  | regHelper n => simp at hfe
  | regPartial n => simp at hfe
  | mkdirp d => simp at hfe

theorem applyEvents_cons (st : Fsys) (e : Event) (evs : List Event) :
    applyEvents st (e :: evs) = applyEvents (applyEvent st e) evs := rfl

theorem oElse_assoc {α : Type} (a b c : Option α) :
    oElse (oElse a b) c = oElse a (oElse b c) := by
  cases a <;> simp [oElse]

theorem getLast?_cons_eq_oElse {α : Type} (c : α) (w : List α) :
    (c :: w).getLast? = oElse w.getLast? (some c) := by
  cases w with
  | nil => simp [oElse]
  | cons x t => rw [List.getLast?_cons_cons]; cases h : (x :: t).getLast? with
    | none => simp [List.getLast?] at h
    | some v => simp [oElse]

/-- Last write wins: with no clean event in the trace, the final content at a
path is the last written content, falling back to the prior state if the
trace never writes the path. -/
theorem lookup_applyEvents_no_clean (evs : List Event) (st : Fsys) (p : String)
    (hnc : ∀ d, Event.clean d ∉ evs) :
    lookupA (applyEvents st evs) p = oElse (writesTo evs p).getLast? (lookupA st p) := by
  induction evs generalizing st with
  | nil => simp [applyEvents, writesTo, oElse]
  | cons e rest ih =>
    have hnc' : ∀ d, Event.clean d ∉ rest := fun d hd => hnc d (List.mem_cons_of_mem e hd)
    cases e with
    | write q c =>
      rw [applyEvents_cons]
      simp only [applyEvent]
      by_cases hq : q = p
      · subst hq
        have hw : writesTo (Event.write q c :: rest) q = c :: writesTo rest q := by
          simp [writesTo]
        rw [hw, getLast?_cons_eq_oElse, oElse_assoc]
        rw [ih (setA st q c) hnc', lookupA_setA_self]
        rfl
      · have hw : writesTo (Event.write q c :: rest) p = writesTo rest p := by
          simp [writesTo, hq]
        rw [hw]
        rw [ih (setA st q c) hnc', lookupA_setA_ne st p q c hq]
    | clean d => exact absurd (List.mem_cons_self _ _) (hnc d)
    | regHelper n =>
      rw [applyEvents_cons]
      simp only [applyEvent]
      have hw : writesTo (Event.regHelper n :: rest) p = writesTo rest p := by simp [writesTo]
      rw [hw]
      exact ih st hnc'
    | regPartial n =>
      rw [applyEvents_cons]
      simp only [applyEvent]
      have hw : writesTo (Event.regPartial n :: rest) p = writesTo rest p := by simp [writesTo]
      rw [hw]
      exact ih st hnc'
    | mkdirp d =>
      rw [applyEvents_cons]
      simp only [applyEvent]
      have hw : writesTo (Event.mkdirp d :: rest) p = writesTo rest p := by simp [writesTo]
      rw [hw]
      exact ih st hnc'

theorem subDirOf_setA_configName (defaults : Obj) (v : Val) (n : String) :
    subDirOf (setA defaults "configName" v) n = subDirOf defaults n := by
  unfold subDirOf
  rw [lookupA_setA_ne defaults "flat" "configName" v (by decide)]

theorem isNeutral_pre (l1 : List String) (l2 : List (String × String)) :
    ∀ e ∈ l1.map Event.regHelper ++ l2.map (fun p => Event.regPartial p.1), isNeutral e = true := by
  intro e he
  rcases List.mem_append.mp he with h | h <;> rcases List.mem_map.mp h with ⟨x, _, rfl⟩ <;> rfl

theorem clean_not_mem_map_toEvent (body : List BodyEvent) (d : String) :
    Event.clean d ∉ body.map BodyEvent.toEvent := by
  intro h
  rcases List.mem_map.mp h with ⟨b, _, hb⟩
  cases b <;> simp [BodyEvent.toEvent] at hb

theorem runBody_license_mem (tread : String → String) (render : String → Obj → String)
    (config : Config) (configName outputDir subDir : String)
    (actions : List Transformation) (m : Obj) (fs1 : Fsys) (body : List BodyEvent)
    (h : runBody tread render config configName outputDir subDir actions m fs1 = Except.ok body) :
    BodyEvent.write (pjoin [outputDir, subDir, "LICENSE"])
      (tread (tpl none ["_common", if config.apache then "LICENSE" else "UNLICENSE"])) ∈ body := by
  simp only [runBody] at h
  generalize (if config.apache then "LICENSE" else "UNLICENSE") = L at h ⊢
  split at h
  · exact Except.noConfusion h
  · split at h
    · exact Except.noConfusion h
    · split at h
      · exact Except.noConfusion h
      · split at h
        · exact Except.noConfusion h
        · split at h
          · exact Except.noConfusion h
          · split at h
            · exact Except.noConfusion h
            · cases h
              simp

/-- Structure of a completed run's trace: registrations first (touching no
file), then the mkdirp and the destructive clean of the output subdirectory,
then the body — which contains no further clean and contains the LICENSE
write. -/
theorem main_completed_events (tread : String → String) (render : String → Obj → String)
    (lambdasModule : Obj) (transformResult : Except TransformErr Obj)
    (config : Config) (configName : String) (fs0 : Fsys) (s : RunState)
    (h : LocalJs.main tread render lambdasModule transformResult config configName fs0
        = Outcome.completed s) :
    ∃ pre body,
      s.events = pre ++ Event.mkdirp (mainDir config configName)
          :: Event.clean (mainDir config configName) :: body
      ∧ (∀ e ∈ pre, isNeutral e = true)
      ∧ (∀ d, Event.clean d ∉ body)
      ∧ Event.write (licensePath config configName) (licenseContent tread config) ∈ body := by
  simp only [LocalJs.main] at h
  split at h
  · exact Outcome.noConfusion h
  · split at h
    · exact Outcome.noConfusion h
    · split at h
      · exact Outcome.noConfusion h
      · rename_i bodyB hrb
        cases h
        refine ⟨(generatorLambdaKeys config.generator).map Event.regHelper
            ++ config.partials.map (fun p => Event.regPartial p.1),
          bodyB.map BodyEvent.toEvent, ?_, isNeutral_pre _ _,
          fun d => clean_not_mem_map_toEvent bodyB d, ?_⟩
        · simp [mainDir, subDirOf_setA_configName]
        · have hmem := runBody_license_mem _ _ _ _ _ _ _ _ _ _ hrb
          have := List.mem_map_of_mem BodyEvent.toEvent hmem
          simpa [licensePath, licenseContent, subDirOf_setA_configName, BodyEvent.toEvent] using this

theorem oElse_none_right {α : Type} (a : Option α) : oElse a none = a := by
  cases a <;> rfl

/-- CLAIM C1: In the perApi pass, for every API item and every fan-out spec,
the rendered context is built by a shallow field-by-field merge with
precedence, lowest to highest: global defaults, then fan-out-spec defaults,
then the toplevel clone (the model with its apiInfo field deleted), then the
item's own fields; for every field the highest-priority source holding it
wins, and absent the item's field the value falls back to the toplevel
clone, then spec defaults, then global defaults, in that order. -/
theorem perApi_merge_precedence (g : Obj) (pa : FanOutSpec) (m apiFlds : Obj) (k : String)
    (hg : wfA g) (hd : wfA (pa.defaults.getD [])) (hm : wfA m) (ha : wfA apiFlds) :
    lookupA (itemContext g pa (delA m "apiInfo") (Val.vobj apiFlds)) k
      = oElse (lookupA apiFlds k)
          (oElse (lookupA (delA m "apiInfo") k)
            (oElse (lookupA (pa.defaults.getD []) k) (lookupA g k))) := by
  unfold itemContext
  rw [lookupA_objAssign (show wfA (valProps (Val.vobj apiFlds)) from ha)]
  rw [lookupA_objAssign (wfA_delA m "apiInfo" hm)]
  rw [lookupA_objAssign hd]
  rw [lookupA_objAssign hg]
  simp [valProps, lookupA, oElse_assoc, oElse_none_right]

/-- Witness for C1, the spec's own example: field `x` lives in all four
sources; the merged context carries the item's value, and the fallback chain
is toplevel, then spec defaults, then global defaults. -/
theorem perApi_merge_precedence_witness :
    wfA [("x", Val.vstr "g")]
    ∧ lookupA (itemContext [("x", Val.vstr "g")]
          ⟨"api.mustache", "api.txt", some [("x", Val.vstr "s")]⟩
          (delA [("x", Val.vstr "t"), ("apiInfo", Val.vobj [])] "apiInfo")
          (Val.vobj [("x", Val.vstr "i")])) "x"
        = oElse (lookupA [("x", Val.vstr "i")] "x")
            (oElse (lookupA (delA [("x", Val.vstr "t"), ("apiInfo", Val.vobj [])] "apiInfo") "x")
              (oElse (lookupA ((some [("x", Val.vstr "s")] : Option Obj).getD []) "x")
                (lookupA [("x", Val.vstr "g")] "x"))) :=
  ⟨by unfold wfA; decide,
   perApi_merge_precedence [("x", Val.vstr "g")]
     ⟨"api.mustache", "api.txt", some [("x", Val.vstr "s")]⟩
     [("x", Val.vstr "t"), ("apiInfo", Val.vobj [])] [("x", Val.vstr "i")] "x"
     (by unfold wfA; decide) (by unfold wfA; decide) (by unfold wfA; decide) (by unfold wfA; decide)⟩

theorem opStep_foldl (render : String → Obj → String) (po : FanOutSpec)
    (tmpl outputDir subDir : String) (ops : List Val) (accE : List BodyEvent) (mc m : Obj)
    (hinv : ∀ v, setA mc "operations" v = setA m "operations" v) :
    (ops.foldl (opStep render po tmpl outputDir subDir) (accE, mc)).1
      = accE ++ ops.map (fun op =>
          BodyEvent.write (pjoin [outputDir, subDir, render po.output (opContext m op)])
            (render tmpl (opContext m op)))
    ∧ (∀ v, setA (ops.foldl (opStep render po tmpl outputDir subDir) (accE, mc)).2 "operations" v
        = setA m "operations" v) := by
  induction ops generalizing accE mc with
  | nil => simpa using hinv
  | cons op rest ih =>
    have hstate : setA (setA mc "operations" (Val.vlist [])) "operations" (Val.vlist [op])
        = opContext m op := by
      rw [setA_setA_same, hinv]; rfl
    have hinv' : ∀ v, setA (opContext m op) "operations" v = setA m "operations" v := by
      intro v; unfold opContext; rw [setA_setA_same]
    have hstep : opStep render po tmpl outputDir subDir (accE, mc) op
        = (accE ++ [BodyEvent.write (pjoin [outputDir, subDir, render po.output (opContext m op)])
            (render tmpl (opContext m op))], opContext m op) := by
      simp only [opStep]
      rw [hstate]
    rw [List.foldl_cons, hstep]
    obtain ⟨h1, h2⟩ := ih (accE ++ [BodyEvent.write
        (pjoin [outputDir, subDir, render po.output (opContext m op)])
        (render tmpl (opContext m op))]) (opContext m op) hinv'
    exact ⟨by rw [h1]; simp, h2⟩

theorem modelStep_foldl (render : String → Obj → String) (pm : FanOutSpec)
    (tmpl outputDir subDir : String) (items : List Val) (accE : List BodyEvent) (mc m : Obj)
    (hinv : ∀ v, setA mc "models" v = setA m "models" v) :
    (items.foldl (modelStep render pm tmpl outputDir subDir) (accE, mc)).1
      = accE ++ items.map (fun item =>
          BodyEvent.write (pjoin [outputDir, subDir,
              render pm.output (modelContext m item (pm.defaults.getD []))])
            (render tmpl (modelContext m item (pm.defaults.getD []))))
    ∧ (∀ v, setA (items.foldl (modelStep render pm tmpl outputDir subDir) (accE, mc)).2 "models" v
        = setA m "models" v) := by
  induction items generalizing accE mc with
  | nil => simpa using hinv
  | cons item rest ih =>
    have hstate : setA (setA mc "models" (Val.vlist []))
          "models" (Val.vlist [Val.vobj (effModelOf item (pm.defaults.getD []))])
        = modelContext m item (pm.defaults.getD []) := by
      rw [setA_setA_same, hinv]; rfl
    have hinv' : ∀ v, setA (modelContext m item (pm.defaults.getD [])) "models" v
        = setA m "models" v := by
      intro v; unfold modelContext; rw [setA_setA_same]
    have hstep : modelStep render pm tmpl outputDir subDir (accE, mc) item
        = (accE ++ [BodyEvent.write (pjoin [outputDir, subDir,
              render pm.output (modelContext m item (pm.defaults.getD []))])
            (render tmpl (modelContext m item (pm.defaults.getD [])))],
           modelContext m item (pm.defaults.getD [])) := by
      simp only [modelStep]
      rw [hstate]
    rw [List.foldl_cons, hstep]
    obtain ⟨h1, h2⟩ := ih (accE ++ [BodyEvent.write (pjoin [outputDir, subDir,
        render pm.output (modelContext m item (pm.defaults.getD []))])
        (render tmpl (modelContext m item (pm.defaults.getD [])))])
      (modelContext m item (pm.defaults.getD [])) hinv'
    exact ⟨by rw [h1]; simp, h2⟩

/-- COUNTEREXAMPLE to C5: for a model item with `x = 1` and fan-out-spec
defaults with `x = 2`, the effective perModel item
(`Object.assign({}, model, pm.defaults||{})`, line 147) carries the spec
default's value `2`, not the item's own value `1` as the claim requires. -/
theorem perModel_item_priority_counterexample :
    lookupA (effModelOf (Val.vobj [("x", Val.vnum 1)]) [("x", Val.vnum 2)]) "x"
      = some (Val.vnum 2)
    ∧ some (Val.vnum 2) ≠ some (Val.vnum 1) := by
  refine ⟨rfl, fun h => ?_⟩
  injection h with h1
  injection h1 with h2
  exact absurd h2 (by decide)

/-- CLAIM C5 (amended): In the perModel pass, for every fan-out spec and every
item of the once-cloned models collection, the effective item is the shallow
merge of the item's fields with the spec's defaults in which the fan-out-spec
defaults take priority over the item's own fields; that effective item is
placed as the sole element of the outer model's models list (replacing its
previous value) and both the output-path and the body templates are rendered
against the outer context, producing one file per (spec x model item). -/
theorem perModel_pass (render : String → Obj → String) (pm : FanOutSpec)
    (tmpl outputDir subDir : String) (items : List Val) (m : Obj) (item : Val) (k : String)
    (hd : wfA (pm.defaults.getD [])) (hi : wfA (valProps item)) :
    (items.foldl (modelStep render pm tmpl outputDir subDir) ([], m)).1
      = items.map (fun it =>
          BodyEvent.write (pjoin [outputDir, subDir,
              render pm.output (modelContext m it (pm.defaults.getD []))])
            (render tmpl (modelContext m it (pm.defaults.getD []))))
    ∧ modelContext m item (pm.defaults.getD [])
        = setA m "models" (Val.vlist [Val.vobj (effModelOf item (pm.defaults.getD []))])
    ∧ lookupA (effModelOf item (pm.defaults.getD [])) k
        = oElse (lookupA (pm.defaults.getD []) k) (lookupA (valProps item) k) := by
  refine ⟨(modelStep_foldl render pm tmpl outputDir subDir items [] m m (fun _ => rfl)).1, rfl, ?_⟩
  unfold effModelOf
  rw [lookupA_objAssign hd, lookupA_objAssign hi]
  simp [lookupA, oElse_none_right]

/-- Witness for the amended C5 at a concrete input: one spec, two items, the
spec default overrides the item field. -/
theorem perModel_pass_witness :
    wfA [("x", Val.vnum 2)] ∧ wfA (valProps (Val.vobj [("x", Val.vnum 1)]))
    ∧ ((([Val.vobj [("x", Val.vnum 1)], Val.vobj [("y", Val.vnum 7)]]).foldl
          (modelStep (fun t _ => t) ⟨"m.mustache", "m.txt", some [("x", Val.vnum 2)]⟩
            "m.hbs" "out" "go") ([], [("models", Val.vlist [])])).1
        = [Val.vobj [("x", Val.vnum 1)], Val.vobj [("y", Val.vnum 7)]].map (fun _ =>
            BodyEvent.write (pjoin ["out", "go", "m.txt"]) "m.hbs")
        ∧ modelContext [("models", Val.vlist [])] (Val.vobj [("x", Val.vnum 1)])
              ((⟨"m.mustache", "m.txt", some [("x", Val.vnum 2)]⟩ : FanOutSpec).defaults.getD [])
            = setA [("models", Val.vlist [])] "models"
                (Val.vlist [Val.vobj (effModelOf (Val.vobj [("x", Val.vnum 1)])
                  ((⟨"m.mustache", "m.txt", some [("x", Val.vnum 2)]⟩ : FanOutSpec).defaults.getD []))])
        ∧ lookupA (effModelOf (Val.vobj [("x", Val.vnum 1)])
              ((⟨"m.mustache", "m.txt", some [("x", Val.vnum 2)]⟩ : FanOutSpec).defaults.getD [])) "x"
            = oElse (lookupA ((⟨"m.mustache", "m.txt", some [("x", Val.vnum 2)]⟩ : FanOutSpec).defaults.getD []) "x")
                (lookupA (valProps (Val.vobj [("x", Val.vnum 1)])) "x")) :=
  ⟨by unfold wfA; decide, by unfold wfA; decide,
   perModel_pass (fun t _ => t) ⟨"m.mustache", "m.txt", some [("x", Val.vnum 2)]⟩
     "m.hbs" "out" "go" [Val.vobj [("x", Val.vnum 1)], Val.vobj [("y", Val.vnum 7)]]
     [("models", Val.vlist [])] (Val.vobj [("x", Val.vnum 1)]) "x"
     (by unfold wfA; decide) (by unfold wfA; decide)⟩

theorem perOpApis_mkApi_aux (render : String → Obj → String) (tread : String → String)
    (templateDir : Option String) (configName outputDir subDir : String) (po : FanOutSpec)
    (apiData : List (Obj × List Val)) (mc m : Obj)
    (hinv : ∀ v, setA mc "operations" v = setA m "operations" v) :
    ∃ mFin,
      perOpApis render tread templateDir configName outputDir subDir po (apiData.map mkApi) mc
        = Except.ok (((apiData.map (fun a => a.2)).flatten).map (fun op =>
            BodyEvent.write (pjoin [outputDir, subDir, render po.output (opContext m op)])
              (render (tread (tpl templateDir [configName, po.input])) (opContext m op))), mFin)
      ∧ (∀ v, setA mFin "operations" v = setA m "operations" v) := by
  induction apiData generalizing mc with
  | nil => exact ⟨mc, rfl, hinv⟩
  | cons a rest ih =>
    obtain ⟨flds, ops⟩ := a
    have hmem1 : jsMember (mkApi (flds, ops)) "operations"
        = Except.ok (Val.vobj [("operation", Val.vlist ops)]) := by
      simp [mkApi, jsMember, jsGet, lookupA_setA_self]
    have hmem2 : (jsMember (Val.vobj [("operation", Val.vlist ops)]) "operation").bind jsIterate
        = Except.ok ops := rfl
    obtain ⟨hfold1, hfold2⟩ := opStep_foldl render po
      (tread (tpl templateDir [configName, po.input])) outputDir subDir ops [] mc m hinv
    rcases hpair : ops.foldl (opStep render po
        (tread (tpl templateDir [configName, po.input])) outputDir subDir) ([], mc) with ⟨evs1, m1⟩
    rw [hpair] at hfold1 hfold2
    simp only [] at hfold1 hfold2
    obtain ⟨mFin, hrec, hrecInv⟩ := ih m1 hfold2
    refine ⟨mFin, ?_, hrecInv⟩
    simp only [List.map_cons, perOpApis, hmem1, hmem2, hpair, hrec, hfold1]
    simp [List.flatten]

theorem length_flatten_eq {α : Type} (L : List (List α)) :
    L.flatten.length = (L.map List.length).sum := by
  induction L with
  | nil => rfl
  | cons l rest ih => simp [ih]

/-- CLAIM C6: For a perOperation fan-out spec, given APIs with operation
collections of sizes k_i, the pass iterates each API's cloned operations
collection (`clone(api.operations).operation`) and emits exactly the sum of
the k_i write events for that spec, one per (API x operation), each rendered
against the model context carrying a one-element operations list holding the
current operation. -/
theorem perOperation_cardinality (render : String → Obj → String) (tread : String → String)
    (templateDir : Option String) (configName outputDir subDir : String) (po : FanOutSpec)
    (apiData : List (Obj × List Val)) (m : Obj) :
    ∃ mFin writes,
      perOpApis render tread templateDir configName outputDir subDir po (apiData.map mkApi) m
        = Except.ok (writes, mFin)
      ∧ writes = ((apiData.map (fun a => a.2)).flatten).map (fun op =>
          BodyEvent.write (pjoin [outputDir, subDir, render po.output (opContext m op)])
            (render (tread (tpl templateDir [configName, po.input])) (opContext m op)))
      ∧ writes.length = (apiData.map (fun a => a.2.length)).sum := by
  obtain ⟨mFin, heq, -⟩ := perOpApis_mkApi_aux render tread templateDir configName outputDir subDir
    po apiData m m (fun _ => rfl)
  refine ⟨mFin, _, heq, rfl, ?_⟩
  rw [List.length_map, length_flatten_eq, List.map_map]
  rfl

/-- CLAIM C2 (code bug): when the external transform fails — per the spec it
invokes the continuation with a non-null error and no model — the callback
body at line 41 executes `model["generator"] = generator` on an undefined
model, so the run throws a TypeError with no effect performed; the reported
error is ignored (the `err` parameter is never read) and the completion
callback is never invoked, contradicting the claim that the callback receives
a non-null error. -/
theorem transform_failure_throws (tread : String → String) (render : String → Obj → String)
    (lambdasModule : Obj) (e : TransformErr) (config : Config) (configName : String) (fs0 : Fsys) :
    LocalJs.main tread render lambdasModule (Except.error e) config configName fs0
      = Outcome.thrown (JsError.typeError "Cannot set properties of undefined (setting generator)")
          ⟨{ config with defaults := setA config.defaults "configName" (Val.vstr configName) }, []⟩ := rfl

/-- CLAIM C4 (code bug): with a touch template configured, the touch step does
not render, split and create files — it throws a TypeError, because line 89
calls `touchTmp.render(model)` and `Handlebars.compile` returns a bare
function with no `render` method.  No touch file is ever created. -/
theorem touch_step_throws (render : String → Obj → String) (t : String) (m : Obj)
    (outputDir subDir : String) (fsNow : Fsys) :
    touchStep render (some t) m outputDir subDir fsNow
      = Except.error (JsError.typeError "touchTmp.render is not a function", []) := rfl

/-- COUNTEREXAMPLE to C9: with no generator configured, line 41 assigns the
undefined value itself — the model ends up with a `generator` own property
whose value is `undefined`, not a marker value distinct from undefined. -/
theorem generator_marker_counterexample :
    attachGenerator (Val.vobj []) (genVal none) = Except.ok [("generator", Val.vundef)]
    ∧ lookupA [("generator", Val.vundef)] "generator" = some Val.vundef :=
  ⟨rfl, rfl⟩

/-- CLAIM C9 (amended): after a successful transform the generator descriptor
is attached onto the model; when the configuration supplies no generator, the
run still creates the model's `generator` own property, but the assigned
value is the undefined value itself (property present, value undefined), not
a distinct "no generator" marker. -/
theorem generator_attached (m : Obj) (g : Option Obj) :
    attachGenerator (Val.vobj m) (genVal g) = Except.ok (setA m "generator" (genVal g))
    ∧ lookupA (setA m "generator" (genVal g)) "generator" = some (genVal g)
    ∧ genVal none = Val.vundef :=
  ⟨rfl, lookupA_setA_self m "generator" (genVal g), rfl⟩

/-- CLAIM C10: if defaults.verbose is truthy and no generator is configured,
then after a successful transform the run throws a TypeError at line 45
(string-concatenating `generator.lambdas` on an undefined generator) with an
empty effect trace — before registering any partial, preparing any directory
or writing any file — and, the outcome being a throw, the completion callback
is never invoked. -/
theorem verbose_no_generator_throws (tread : String → String) (render : String → Obj → String)
    (lambdasModule : Obj) (m : Obj) (config : Config) (configName : String) (fs0 : Fsys)
    (hv : truthy (lookupA config.defaults "verbose") = true)
    (hg : config.generator = none) :
    LocalJs.main tread render lambdasModule (Except.ok m) config configName fs0
      = Outcome.thrown (JsError.typeError "Cannot read properties of undefined (reading lambdas)")
          ⟨{ config with defaults := setA config.defaults "configName" (Val.vstr configName) }, []⟩ := by
  simp only [LocalJs.main, hg, hv, genVal, attachGenerator, jsSetProp, jsMember, if_true]
  rfl

/-- Witness for C10: a concrete verbose run without a generator throws with an
empty trace. -/
theorem verbose_no_generator_throws_witness :
    truthy (lookupA ({ cfgW with defaults := [("verbose", Val.vbool true)] } : Config).defaults "verbose") = true
    ∧ ({ cfgW with defaults := [("verbose", Val.vbool true)] } : Config).generator = none
    ∧ LocalJs.main (fun _ => "T") (fun t _ => t) [] (Except.ok [("apiInfo", Val.vobj [])])
        { cfgW with defaults := [("verbose", Val.vbool true)] } "go" []
      = Outcome.thrown (JsError.typeError "Cannot read properties of undefined (reading lambdas)")
          ⟨{ ({ cfgW with defaults := [("verbose", Val.vbool true)] } : Config) with
              defaults := setA [("verbose", Val.vbool true)] "configName" (Val.vstr "go") }, []⟩ :=
  ⟨rfl, rfl,
   verbose_no_generator_throws (fun _ => "T") (fun t _ => t) [] [("apiInfo", Val.vobj [])]
     { cfgW with defaults := [("verbose", Val.vbool true)] } "go" [] rfl rfl⟩

/-- COUNTEREXAMPLE to C7: the run adds a `configName` field to the
configuration's defaults map (line 35): absent before the run, present after,
so the configuration object is mutated. -/
theorem config_mutation_counterexample :
    lookupA cfgW.defaults "configName" = none
    ∧ lookupA (LocalJs.main (fun _ => "T") (fun t _ => t) [] (Except.ok [])
        cfgW "go" []).state.config.defaults "configName" = some (Val.vstr "go") :=
  ⟨rfl, rfl⟩

/-- CLAIM C7 (amended): the run mutates the configuration in exactly two
ways — it sets defaults.configName to the run name, and, once the
template-preparation step is reached, stores each input transformation's read
template text on that entry (the pushed action objects are the configuration's
own entries); every other configuration field is unchanged. -/
theorem config_mutation_exact (tread : String → String) (render : String → Obj → String)
    (lambdasModule : Obj) (tres : Except TransformErr Obj)
    (config : Config) (configName : String) (fs0 : Fsys) :
    let s := (LocalJs.main tread render lambdasModule tres config configName fs0).state
    s.config.defaults = setA config.defaults "configName" (Val.vstr configName)
    ∧ (s.config.transformations = config.transformations
       ∨ s.config.transformations = prepActions tread config.templateDir configName config.transformations)
    ∧ s.config.outputDir = config.outputDir
    ∧ s.config.templateDir = config.templateDir
    ∧ s.config.generator = config.generator
    ∧ s.config.partials = config.partials
    ∧ s.config.directories = config.directories
    ∧ s.config.touch = config.touch
    ∧ s.config.apache = config.apache
    ∧ s.config.perApi = config.perApi
    ∧ s.config.perPath = config.perPath
    ∧ s.config.perModel = config.perModel
    ∧ s.config.perOperation = config.perOperation := by
  simp only [LocalJs.main]
  split
  · simp [Outcome.state]
  · split
    · simp [Outcome.state]
    · split
      · simp [Outcome.state]
      · simp [Outcome.state]

theorem writesTo_neutral (evs : List Event) (p : String)
    (h : ∀ e ∈ evs, isNeutral e = true) : writesTo evs p = [] := by
  rw [writesTo, List.filterMap_eq_nil_iff]
  intro e he
  have := h e he
  cases e <;> simp_all [isNeutral]

/-- CLAIM C3: in every completed run the destructive clean of the output
subdirectory happens right after its creation and before everything else the
run does — in particular before any pass writes any output file (the trace
before the clean consists of registrations and the mkdirp only) — and a file
under the subdirectory that the run does not write is absent from the final
filesystem. -/
theorem clean_before_write (tread : String → String) (render : String → Obj → String)
    (lambdasModule : Obj) (tres : Except TransformErr Obj) (config : Config)
    (configName : String) (fs0 : Fsys) (s : RunState) (p : String)
    (hrun : LocalJs.main tread render lambdasModule tres config configName fs0
        = Outcome.completed s)
    (hunder : isUnder (mainDir config configName) p = true)
    (hnw : p ∉ writePaths s.events) :
    (∃ pre body, s.events = pre ++ Event.mkdirp (mainDir config configName)
          :: Event.clean (mainDir config configName) :: body
        ∧ (∀ e ∈ pre, isNeutral e = true))
    ∧ lookupA (applyEvents fs0 s.events) p = none := by
  obtain ⟨pre, body, hev, hpre, hnc, -⟩ := main_completed_events tread render lambdasModule
    tres config configName fs0 s hrun
  refine ⟨⟨pre, body, hev, hpre⟩, ?_⟩
  rw [hev] at hnw ⊢
  have hnwb : p ∉ writePaths body := by
    intro hb
    apply hnw
    simp only [writePaths, List.filterMap_append, List.filterMap_cons] at *
    exact List.mem_append.mpr (Or.inr hb)
  rw [applyEvents_append, applyEvents_neutral fs0 pre hpre, applyEvents_cons, applyEvents_cons]
  have h1 : applyEvent fs0 (Event.mkdirp (mainDir config configName)) = fs0 := rfl
  have h2 : applyEvent fs0 (Event.clean (mainDir config configName))
      = cleanFs fs0 (mainDir config configName) := rfl
  rw [h1, h2]
  exact lookup_applyEvents_none body _ p hnwb (lookupA_cleanFs_under fs0 _ p hunder)

/-- Witness for C3: a concrete run over a filesystem pre-seeded with a stray
`junk.txt` under the output subdirectory; the run completes, the clean
precedes the single write, and the stray file is gone afterwards. -/
theorem clean_before_write_witness :
    isUnder (mainDir cfgW "go") "out/go/junk.txt" = true
    ∧ "out/go/junk.txt" ∉ writePaths
        [Event.mkdirp "out/go", Event.clean "out/go", Event.write "out/go/LICENSE" "T"]
    ∧ ((∃ pre body,
          ([Event.mkdirp "out/go", Event.clean "out/go", Event.write "out/go/LICENSE" "T"] : List Event)
            = pre ++ Event.mkdirp (mainDir cfgW "go") :: Event.clean (mainDir cfgW "go") :: body
          ∧ (∀ e ∈ pre, isNeutral e = true))
        ∧ lookupA (applyEvents [("out/go/junk.txt", "x")]
            [Event.mkdirp "out/go", Event.clean "out/go", Event.write "out/go/LICENSE" "T"])
            "out/go/junk.txt" = none) := by
  have hrun : LocalJs.main (fun _ => "T") (fun t _ => t) [] (Except.ok [("models", Val.vlist [])])
      cfgW "go" [("out/go/junk.txt", "x")]
      = Outcome.completed ⟨{ cfgW with defaults := [("configName", Val.vstr "go")] },
          [Event.mkdirp "out/go", Event.clean "out/go", Event.write "out/go/LICENSE" "T"]⟩ := rfl
  exact ⟨by decide, by decide,
    clean_before_write (fun _ => "T") (fun t _ => t) [] (Except.ok [("models", Val.vlist [])])
      cfgW "go" [("out/go/junk.txt", "x")]
      ⟨{ cfgW with defaults := [("configName", Val.vstr "go")] },
        [Event.mkdirp "out/go", Event.clean "out/go", Event.write "out/go/LICENSE" "T"]⟩
      "out/go/junk.txt" hrun (by decide) (by decide)⟩

/-- CLAIM C8: every completed run writes the LICENSE file into the output
subdirectory, with content read from the built-in template tree — selected by
the `apache` flag, apache text when true, unlicense text when false — through
`tpl` with an empty configuration, hence independent of any templateDir
override; and when no other pass output collides with the LICENSE path
(exactly one write to it), the final filesystem holds exactly that content. -/
theorem license_file (tread : String → String) (render : String → Obj → String)
    (lambdasModule : Obj) (tres : Except TransformErr Obj) (config : Config)
    (configName : String) (fs0 : Fsys) (s : RunState)
    (hrun : LocalJs.main tread render lambdasModule tres config configName fs0
        = Outcome.completed s)
    (hone : writesTo s.events (licensePath config configName) = [licenseContent tread config]) :
    Event.write (licensePath config configName) (licenseContent tread config) ∈ s.events
    ∧ licenseContent tread config
        = tread (pjoin ["__dirname/templates", "_common",
            if config.apache then "LICENSE" else "UNLICENSE"])
    ∧ lookupA (applyEvents fs0 s.events) (licensePath config configName)
        = some (licenseContent tread config) := by
  obtain ⟨pre, body, hev, hpre, hnc, hlic⟩ := main_completed_events tread render lambdasModule
    tres config configName fs0 s hrun
  refine ⟨mem_of_mem_writesTo s.events _ _ (by rw [hone]; exact List.mem_singleton.mpr rfl),
    rfl, ?_⟩
  rw [hev] at hone ⊢
  have hbody : writesTo body (licensePath config configName) = [licenseContent tread config] := by
    rw [writesTo_append, writesTo_neutral pre _ hpre] at hone
    simpa [writesTo] using hone
  rw [applyEvents_append, applyEvents_neutral fs0 pre hpre, applyEvents_cons, applyEvents_cons]
  have h1 : applyEvent fs0 (Event.mkdirp (mainDir config configName)) = fs0 := rfl
  have h2 : applyEvent fs0 (Event.clean (mainDir config configName))
      = cleanFs fs0 (mainDir config configName) := rfl
  rw [h1, h2, lookup_applyEvents_no_clean body _ _ hnc, hbody]
  rfl

/-- Witness for C8: a concrete completed run with `apache := true`; the single
LICENSE write carries the text read from the built-in apache template path and
is the final LICENSE content. -/
theorem license_file_witness :
    writesTo [Event.mkdirp "out/go", Event.clean "out/go",
        Event.write "out/go/LICENSE" "APACHE __dirname/templates/_common/LICENSE"]
      (licensePath { cfgW with apache := true } "go")
      = [licenseContent (fun p => "APACHE " ++ p) { cfgW with apache := true }]
    ∧ (Event.write (licensePath { cfgW with apache := true } "go")
          (licenseContent (fun p => "APACHE " ++ p) { cfgW with apache := true })
        ∈ [Event.mkdirp "out/go", Event.clean "out/go",
            Event.write "out/go/LICENSE" "APACHE __dirname/templates/_common/LICENSE"]
      ∧ licenseContent (fun p => "APACHE " ++ p) { cfgW with apache := true }
          = (fun p => "APACHE " ++ p) (pjoin ["__dirname/templates", "_common",
              if ({ cfgW with apache := true } : Config).apache then "LICENSE" else "UNLICENSE"])
      ∧ lookupA (applyEvents []
          [Event.mkdirp "out/go", Event.clean "out/go",
            Event.write "out/go/LICENSE" "APACHE __dirname/templates/_common/LICENSE"])
          (licensePath { cfgW with apache := true } "go")
          = some (licenseContent (fun p => "APACHE " ++ p) { cfgW with apache := true })) := by
  have hrun : LocalJs.main (fun p => "APACHE " ++ p) (fun t _ => t) []
      (Except.ok [("models", Val.vlist [])]) { cfgW with apache := true } "go" []
      = Outcome.completed ⟨{ cfgW with apache := true, defaults := [("configName", Val.vstr "go")] },
          [Event.mkdirp "out/go", Event.clean "out/go",
            Event.write "out/go/LICENSE" "APACHE __dirname/templates/_common/LICENSE"]⟩ := rfl
  exact ⟨rfl,
    license_file (fun p => "APACHE " ++ p) (fun t _ => t) []
      (Except.ok [("models", Val.vlist [])]) { cfgW with apache := true } "go" []
      ⟨{ cfgW with apache := true, defaults := [("configName", Val.vstr "go")] },
        [Event.mkdirp "out/go", Event.clean "out/go",
          Event.write "out/go/LICENSE" "APACHE __dirname/templates/_common/LICENSE"]⟩
      hrun rfl⟩
